import Mathlib

/-!
Verification development for the AudItecX reconciliation and orchestration core.

Modelling conventions used throughout this file:
* Python floats are modelled as exact rationals.
* Python dicts that carry fixed keys are modelled as structures; a key that may
  be absent is modelled as an Option field.
* The human-readable comment strings produced by the matching helpers are
  modelled by the inductive type Comment: each constructor stands for one of
  the distinct message templates of the source, keeping its numeric payloads.
  Every message template in the source renders to a non-empty string, which is
  what the truthiness tests of the source rely on.
* Reading the file system and the mock CSV dataset is abstracted by passing the
  parsed rows and documents as explicit arguments.
-/

namespace AudItecX

/- The Batteries library ships the rational primitives as irreducible, which
blocks kernel evaluation of concrete runs; restore the default reducibility
so that decidability checks on concrete inputs reduce. -/
attribute [local semireducible] Rat.mul Rat.add Rat.sub Rat.inv

/-- Uppercasing as used by the source (str.upper on identifier tokens, ASCII). -/
def pyUpper (s : String) : String := ⟨s.data.map Char.toUpper⟩

/-- Whitespace set of str.strip in the source (ASCII whitespace). -/
def isPySpace (c : Char) : Bool :=
  c = ' ' || c = '\t' || c = '\n' || c = '\r' || c = '\x0b' || c = '\x0c'

/-- Strip leading and trailing whitespace from a character list. -/
def trimChars (cs : List Char) : List Char :=
  ((cs.dropWhile isPySpace).reverse.dropWhile isPySpace).reverse

/-- Python str.strip on a string. -/
def pyStrip (s : String) : String := ⟨trimChars s.data⟩

/-- Calendar date as validated by datetime.strptime in the source. -/
structure CalDate where
  year : Int
  month : Nat
  day : Nat
deriving DecidableEq

/-- Gregorian leap-year test, as validated by the datetime constructor. -/
def isLeap (y : Int) : Bool := y % 4 == 0 && (y % 100 != 0 || y % 400 == 0)

/-- Days in a month, as validated by the datetime constructor. -/
def daysInMonth (y : Int) (m : Nat) : Nat :=
  if m = 2 then (if isLeap y then 29 else 28)
  else if m = 4 ∨ m = 6 ∨ m = 9 ∨ m = 11 then 30
  else 31

/-- Day count of a date (proleptic Gregorian, days-from-civil form); only
differences of this value are used, mirroring datetime subtraction. -/
def daysFromCivil (dt : CalDate) : Int :=
  let y : Int := if dt.month ≤ 2 then dt.year - 1 else dt.year
  let era : Int := Int.fdiv y 400
  let yoe : Int := y - era * 400
  let mp : Nat := (dt.month + 9) % 12
  let doy : Nat := (153 * mp + 2) / 5 + dt.day - 1
  let doe : Int := yoe * 365 + Int.fdiv yoe 4 - Int.fdiv yoe 100 + (doy : Int)
  era * 146097 + doe - 719468

/-- Numeric value of a decimal digit character. -/
def digitVal (c : Char) : Nat := c.toNat - '0'.toNat

/-- Construct a date subject to the validation done by the datetime
constructor inside strptime: month and day ranges and year at least 1. -/
def mkValidDate (y : Int) (m d : Nat) : Option CalDate :=
  if 1 ≤ y ∧ 1 ≤ m ∧ m ≤ 12 ∧ 1 ≤ d ∧ d ≤ daysInMonth y m then some ⟨y, m, d⟩
  else none

/-- Month or day field of strptime: a two-digit reading in range 1..hi is
preferred, with backtracking to a single non-zero digit when the two-digit
reading or its continuation fails, mirroring the alternation of the regex the
Python strptime implementation compiles for the percent-m and percent-d
directives. -/
def parseNum2or1 (hi : Nat) (cs : List Char) (k : Nat → List Char → Option CalDate) :
    Option CalDate :=
  match cs with
  | c1 :: c2 :: rest =>
    (if c1.isDigit && c2.isDigit then
        let v := digitVal c1 * 10 + digitVal c2
        if 1 ≤ v ∧ v ≤ hi then k v rest else none
      else none)
    <|> (if c1.isDigit && 1 ≤ digitVal c1 then k (digitVal c1) (c2 :: rest) else none)
  | [c1] => if c1.isDigit && 1 ≤ digitVal c1 then k (digitVal c1) [] else none
  | [] => none

/-- Format YYYY-MM-DD of the source: exactly four digits of year, literal
dash, month, dash, day, end of input, then calendar validation. -/
def parseYMD (cs : List Char) : Option CalDate :=
  match cs with
  | a :: b :: c :: d :: '-' :: rest =>
    if a.isDigit && b.isDigit && c.isDigit && d.isDigit then
      let y : Int :=
        ((digitVal a * 1000 + digitVal b * 100 + digitVal c * 10 + digitVal d : Nat) : Int)
      parseNum2or1 12 rest (fun mo rest2 =>
        match rest2 with
        | '-' :: rest3 =>
          parseNum2or1 31 rest3 (fun dy rest4 =>
            match rest4 with
            | [] => mkValidDate y mo dy
            | _ => none)
        | _ => none)
    else none
  | _ => none

/-- Format DD-MM-YYYY of the source: day, dash, month, dash, exactly four
digits of year, end of input, then calendar validation. -/
def parseDMY (cs : List Char) : Option CalDate :=
  parseNum2or1 31 cs (fun dy rest =>
    match rest with
    | '-' :: rest2 =>
      parseNum2or1 12 rest2 (fun mo rest3 =>
        match rest3 with
        | '-' :: a :: b :: c :: d :: [] =>
          if a.isDigit && b.isDigit && c.isDigit && d.isDigit then
            mkValidDate
              ((digitVal a * 1000 + digitVal b * 100 + digitVal c * 10 + digitVal d : Nat) : Int)
              mo dy
          else none
        | _ => none)
    | _ => none)

/-- Embedding of the function named with an underscore, to-date, of
match-agent: an empty (falsy) value yields none, otherwise the two formats
are tried in order and failures fall through to none. -/
def toDate (s : String) : Option CalDate :=
  if s = "" then none else parseYMD s.data <|> parseDMY s.data

/-- Structured stand-in for the distinct comment strings built by the
matching helpers of match-agent; constructors keep the numeric payloads of
the corresponding message templates. -/
inductive Comment where
  | idMatchOn (tokens : List String)
  | amountOk (delta : ℚ)
  | amountFail (delta tolerance : ℚ)
  | dateUnavailable
  | dateOk
  | dateFail (gap : Int)
  | unclearReason
  | noSupportingDoc
deriving DecidableEq, Inhabited

/-- Every comment template of the source renders to a non-empty string, which
is what the truthiness tests of the source observe. -/
def commentNonEmpty (_ : Comment) : Bool := true

/-- Ledger row dict as consumed by reconcile (the payload shape built by
query-journal, with keys defaulted as in the source). -/
structure Row where
  entry_id : String := ""
  vendor_id : String := ""
  vendor_name : String := ""
  invoice_id : String := ""
  po_id : String := ""
  amount : ℚ := 0
  currency : String := "USD"
  status : String := "recorded"
  posting_date : String := ""
deriving DecidableEq, Inhabited

/-- Document dict as consumed by reconcile (the payload shape built by
find-docs; the confidence field holds the extraction confidence under
whichever of the two key spellings the producing side used). -/
structure Doc where
  filename : String := ""
  path : String := ""
  doc_type : String := "unknown"
  vendor_id : String := ""
  vendor_name : String := ""
  invoice_id : String := ""
  po_id : String := ""
  date : String := ""
  amount : ℚ := 0
  currency : String := "USD"
  text : String := ""
  manifest_ref : String := ""
  confidence : ℚ := 9/10
deriving DecidableEq, Inhabited

/-- Uppercased identifier tokens of a ledger row, as in the id-match helper. -/
def ledgerTokens (r : Row) : List String :=
  [pyUpper r.vendor_id, pyUpper r.invoice_id, pyUpper r.po_id]

/-- Uppercased identifier tokens of a document, as in the id-match helper. -/
def docTokens (d : Doc) : List String :=
  [pyUpper d.vendor_id, pyUpper d.invoice_id, pyUpper d.po_id]

/-- Overlap computed by the id-match helper: non-empty document tokens that
also occur among the ledger tokens. The source ranges over hash sets, which
only affects ordering and duplication inside the comment payload, never the
emptiness test. -/
def idOverlap (r : Row) (d : Doc) : List String :=
  (docTokens d).filter (fun t => t ≠ "" && (ledgerTokens r).contains t)

/-- Embedding of the id-match helper of match-agent: a boolean and the comment
(the source returns an empty string, here none, when there is no overlap). -/
def idMatch (r : Row) (d : Doc) : Bool × Option Comment :=
  if idOverlap r d ≠ [] then (true, some (.idMatchOn (idOverlap r d)))
  else (false, none)

/-- Embedding of the amount-within-tolerance helper of match-agent. -/
def amountWithinTolerance (r : Row) (d : Doc) : Bool × Comment :=
  let tolerance := max (|r.amount| * (1/100)) (1/2)
  let delta := |r.amount - d.amount|
  if delta ≤ tolerance then (true, .amountOk delta)
  else (false, .amountFail delta tolerance)

/-- Embedding of the date-within-window helper of match-agent: when either
side fails to parse the check passes with the date-unavailable comment. -/
def dateWithinWindow (r : Row) (d : Doc) : Bool × Comment :=
  match toDate r.posting_date, toDate d.date with
  | some ld, some dd =>
    let gap := daysFromCivil ld - daysFromCivil dd
    if gap.natAbs ≤ 7 then (true, .dateOk) else (false, .dateFail gap)
  | _, _ => (true, .dateUnavailable)

/-- Embedding of the reason expression of reconcile, literally the chain
amount-comment or date-comment or the fallback text, resolved through the
truthiness of each comment as a Python string. -/
def anomalyReason (amountC dateC : Comment) : Comment :=
  if commentNonEmpty amountC then amountC
  else if commentNonEmpty dateC then dateC
  else .unclearReason

/-- One confirmed link of a match entry: the document dict together with the
rationale comment list, as appended to the linked list in reconcile. -/
structure LinkedDoc where
  document : Doc
  rationale : List Comment
deriving DecidableEq, Inhabited

/-- One anomaly dict emitted by reconcile. -/
structure Anomaly where
  ledger_entry : Row
  document : Option Doc
  reason : Comment
deriving DecidableEq, Inhabited

/-- One matches entry emitted by reconcile. -/
structure MatchEntry where
  ledger_entry : Row
  documents : List LinkedDoc
deriving DecidableEq, Inhabited

/-- Output shape of reconcile. -/
structure ReconcileResult where
  «matches» : List MatchEntry
  anomalies : List Anomaly
deriving DecidableEq, Inhabited

/-- Per-document body of the inner loop of reconcile: none when the
identifier check fails (the loop continues), otherwise either a confirmed
link or an anomaly for the candidate pair. -/
def classify (row : Row) (doc : Doc) : Option (LinkedDoc ⊕ Anomaly) :=
  if (idMatch row doc).1 then
    let rationale :=
      [(idMatch row doc).2, some (amountWithinTolerance row doc).2,
        some (dateWithinWindow row doc).2].filterMap id
    if (amountWithinTolerance row doc).1 && (dateWithinWindow row doc).1 then
      some (Sum.inl ⟨doc, rationale⟩)
    else
      some (Sum.inr ⟨row, some doc,
        anomalyReason (amountWithinTolerance row doc).2 (dateWithinWindow row doc).2⟩)
  else none

/-- Linked list accumulated for one row by the inner loop of reconcile. -/
def rowLinked (documents : List Doc) (row : Row) : List LinkedDoc :=
  documents.filterMap (fun doc =>
    match classify row doc with
    | some (Sum.inl l) => some l
    | _ => none)

/-- Candidate anomalies accumulated for one row by the inner loop of
reconcile, in document order. -/
def rowAnomalies (documents : List Doc) (row : Row) : List Anomaly :=
  documents.filterMap (fun doc =>
    match classify row doc with
    | some (Sum.inr a) => some a
    | _ => none)

/-- Embedding of reconcile of match-agent: per row, the confirmed links and
candidate anomalies of the inner loop, then the row-level outcome, with the
anomaly list in the emission order of the source loop. -/
def reconcile (documents : List Doc) (journal_rows : List Row) : ReconcileResult :=
  { «matches» := journal_rows.filterMap (fun row =>
      if rowLinked documents row ≠ [] then some ⟨row, rowLinked documents row⟩ else none)
    anomalies := journal_rows.flatMap (fun row =>
      rowAnomalies documents row ++
        (if rowLinked documents row = [] then
          [⟨row, none, .noSupportingDoc⟩] else [])) }

/-- Amount condition of the spec, written as the spec states it. -/
def claimAmountClause (r : Row) (d : Doc) : Prop :=
  |r.amount - d.amount| ≤ max (|r.amount| * (1/100)) (1/2)

/-- Identifier-overlap condition of the spec: some non-empty identifier of
the document equals, case-insensitively, one of the row identifiers. -/
def claimIdOverlap (r : Row) (d : Doc) : Prop :=
  ∃ t ∈ [d.vendor_id, d.invoice_id, d.po_id], t ≠ "" ∧ pyUpper t ∈ ledgerTokens r

theorem pyUpper_eq_empty {s : String} : pyUpper s = "" ↔ s = "" := by
  cases s with
  | mk data =>
    constructor
    · intro h
      have hd : data.map Char.toUpper = [] := congrArg String.data h
      simpa using congrArg String.mk (List.map_eq_nil_iff.mp hd)
    · intro h
      simpa [pyUpper] using congrArg pyUpper h

theorem linked_proj_eq_some {o : Option (LinkedDoc ⊕ Anomaly)} {l : LinkedDoc} :
    (match o with | some (Sum.inl x) => some x | _ => none) = some l ↔
      o = some (Sum.inl l) := by
  rcases o with _ | x
  · simp
  · rcases x with x | a <;> simp

theorem anom_proj_eq_some {o : Option (LinkedDoc ⊕ Anomaly)} {a : Anomaly} :
    (match o with | some (Sum.inr x) => some x | _ => none) = some a ↔
      o = some (Sum.inr a) := by
  rcases o with _ | x
  · simp
  · rcases x with x | b <;> simp

theorem mem_rowLinked_iff {docs : List Doc} {row : Row} {l : LinkedDoc} :
    l ∈ rowLinked docs row ↔ ∃ doc ∈ docs, classify row doc = some (Sum.inl l) := by
  unfold rowLinked
  rw [List.mem_filterMap]
  constructor
  · rintro ⟨doc, hdoc, h⟩
    exact ⟨doc, hdoc, linked_proj_eq_some.mp h⟩
  · rintro ⟨doc, hdoc, h⟩
    exact ⟨doc, hdoc, linked_proj_eq_some.mpr h⟩

theorem mem_rowAnomalies_iff {docs : List Doc} {row : Row} {a : Anomaly} :
    a ∈ rowAnomalies docs row ↔ ∃ doc ∈ docs, classify row doc = some (Sum.inr a) := by
  unfold rowAnomalies
  rw [List.mem_filterMap]
  constructor
  · rintro ⟨doc, hdoc, h⟩
    exact ⟨doc, hdoc, anom_proj_eq_some.mp h⟩
  · rintro ⟨doc, hdoc, h⟩
    exact ⟨doc, hdoc, anom_proj_eq_some.mpr h⟩

theorem mem_reconcile_matches_iff {docs : List Doc} {rows : List Row} {m : MatchEntry} :
    m ∈ (reconcile docs rows).«matches» ↔
      ∃ row ∈ rows, rowLinked docs row ≠ [] ∧ m = ⟨row, rowLinked docs row⟩ := by
  unfold reconcile
  rw [List.mem_filterMap]
  constructor
  · rintro ⟨row, hrow, h⟩
    by_cases hc : rowLinked docs row ≠ []
    · rw [if_pos hc] at h
      cases h
      exact ⟨row, hrow, hc, rfl⟩
    · rw [if_neg hc] at h
      cases h
  · rintro ⟨row, hrow, hc, rfl⟩
    exact ⟨row, hrow, if_pos hc⟩

theorem mem_reconcile_anomalies_iff {docs : List Doc} {rows : List Row} {a : Anomaly} :
    a ∈ (reconcile docs rows).anomalies ↔
      ∃ row ∈ rows,
        a ∈ rowAnomalies docs row ∨
          rowLinked docs row = [] ∧ a = ⟨row, none, .noSupportingDoc⟩ := by
  unfold reconcile
  rw [List.mem_flatMap]
  constructor
  · rintro ⟨row, hrow, h⟩
    rcases List.mem_append.mp h with h | h
    · exact ⟨row, hrow, Or.inl h⟩
    · by_cases hc : rowLinked docs row = []
      · rw [if_pos hc] at h
        rcases List.mem_singleton.mp h with rfl
        exact ⟨row, hrow, Or.inr ⟨hc, rfl⟩⟩
      · rw [if_neg hc] at h
        cases h
  · rintro ⟨row, hrow, h | ⟨hc, rfl⟩⟩
    · exact ⟨row, hrow, List.mem_append.mpr (Or.inl h)⟩
    · exact ⟨row, hrow, List.mem_append.mpr (Or.inr (by rw [if_pos hc]; simp))⟩

theorem classify_inl_spec {row : Row} {doc : Doc} {l : LinkedDoc}
    (h : classify row doc = some (Sum.inl l)) :
    l.document = doc ∧ (idMatch row doc).1 = true ∧
      (amountWithinTolerance row doc).1 = true ∧ (dateWithinWindow row doc).1 = true := by
  unfold classify at h
  split at h
  · rename_i hid
    split at h
    · rename_i hok
      cases h
      exact ⟨rfl, hid, (Bool.and_eq_true .. ▸ hok).1, (Bool.and_eq_true .. ▸ hok).2⟩
    · cases h
  · cases h

theorem classify_inr_spec {row : Row} {doc : Doc} {a : Anomaly}
    (h : classify row doc = some (Sum.inr a)) :
    a = ⟨row, some doc,
          anomalyReason (amountWithinTolerance row doc).2 (dateWithinWindow row doc).2⟩ ∧
      (idMatch row doc).1 = true ∧
      ¬((amountWithinTolerance row doc).1 = true ∧ (dateWithinWindow row doc).1 = true) := by
  unfold classify at h
  split at h
  · rename_i hid
    split at h
    · cases h
    · rename_i hok
      cases h
      refine ⟨rfl, hid, ?_⟩
      intro hcon
      exact hok (by rw [hcon.1, hcon.2]; rfl)
  · cases h

theorem idMatch_fst_overlap {r : Row} {d : Doc} (h : (idMatch r d).1 = true) :
    claimIdOverlap r d := by
  unfold idMatch at h
  split at h
  · rename_i hne
    rcases List.exists_mem_of_ne_nil _ hne with ⟨t, ht⟩
    have := List.mem_filter.mp ht
    rcases this with ⟨htd, hcond⟩
    rcases Bool.and_eq_true .. ▸ hcond with ⟨htne, htmem⟩
    have htne' : t ≠ "" := by simpa using htne
    have htmem' : t ∈ ledgerTokens r := by
      simpa using htmem
    unfold docTokens at htd
    simp only [List.mem_cons, List.not_mem_nil, or_false] at htd
    rcases htd with rfl | rfl | rfl
    · exact ⟨d.vendor_id, by simp, fun hc => htne' (pyUpper_eq_empty.mpr hc), htmem'⟩
    · exact ⟨d.invoice_id, by simp, fun hc => htne' (pyUpper_eq_empty.mpr hc), htmem'⟩
    · exact ⟨d.po_id, by simp, fun hc => htne' (pyUpper_eq_empty.mpr hc), htmem'⟩
  · cases h

theorem amount_fst_iff {r : Row} {d : Doc} :
    (amountWithinTolerance r d).1 = true ↔ claimAmountClause r d := by
  show (if |r.amount - d.amount| ≤ max (|r.amount| * (1/100)) (1/2) then
      ((true : Bool), Comment.amountOk |r.amount - d.amount|)
    else ((false : Bool),
      Comment.amountFail |r.amount - d.amount| (max (|r.amount| * (1/100)) (1/2)))).1 = true ↔
    claimAmountClause r d
  by_cases hcond : |r.amount - d.amount| ≤ max (|r.amount| * (1/100)) (1/2)
  · rw [if_pos hcond]
    exact ⟨fun _ => hcond, fun _ => rfl⟩
  · rw [if_neg hcond]
    exact ⟨fun h => Bool.noConfusion h, fun h => absurd h hcond⟩

theorem date_fst_iff {r : Row} {d : Doc} :
    (dateWithinWindow r d).1 = true ↔
      (toDate r.posting_date = none ∨ toDate d.date = none ∨
        ∃ ld dd, toDate r.posting_date = some ld ∧ toDate d.date = some dd ∧
          (daysFromCivil ld - daysFromCivil dd).natAbs ≤ 7) := by
  unfold dateWithinWindow
  rcases hr : toDate r.posting_date with _ | ld
  · simp [hr]
  · rcases hd : toDate d.date with _ | dd
    · simp [hr, hd]
    · simp only [hr, hd]
      split <;> rename_i hgap
      · constructor
        · intro _
          exact Or.inr (Or.inr ⟨ld, dd, rfl, rfl, hgap⟩)
        · intro _
          rfl
      · constructor
        · intro h
          exact Bool.noConfusion h
        · rintro (h | h | ⟨ld2, dd2, h1, h2, h3⟩)
          · exact Option.noConfusion h
          · exact Option.noConfusion h
          · cases h1
            cases h2
            exact absurd h3 hgap

/-- Ledger row for the C1 counterexample and witness: a parseable posting
date and an identifier shared with the document below. -/
def c1Row : Row := { vendor_id := "VEND-100", amount := 100, posting_date := "2025-01-10" }

/-- Document for the C1 counterexample and witness: an empty, hence
unparseable, date. -/
def c1Doc : Doc := { vendor_id := "VEND-100", amount := 100, date := "" }

/-- Match entry produced by reconcile on the C1 inputs. -/
def c1Match : MatchEntry :=
  ⟨c1Row, [⟨c1Doc, [Comment.idMatchOn ["VEND-100"], Comment.amountOk 0,
    Comment.dateUnavailable]⟩]⟩

/-- Linked document inside the C1 match entry. -/
def c1Linked : LinkedDoc :=
  ⟨c1Doc, [Comment.idMatchOn ["VEND-100"], Comment.amountOk 0, Comment.dateUnavailable]⟩

/-- C1, counterexample to the claim as stated: reconcile records this pair as
a confirmed match although the row date parses and the document date does
not, so neither are both dates unparseable nor is there a day difference of
at most 7 between two parsed dates. -/
theorem c1_counterexample :
    (∃ m ∈ (reconcile [c1Doc] [c1Row]).«matches», m.ledger_entry = c1Row ∧
      ∃ l ∈ m.documents, l.document = c1Doc) ∧
    ¬ ((toDate c1Row.posting_date = none ∧ toDate c1Doc.date = none) ∨
        ∃ ld dd, toDate c1Row.posting_date = some ld ∧ toDate c1Doc.date = some dd ∧
          (daysFromCivil ld - daysFromCivil dd).natAbs ≤ 7) := by
  constructor
  · decide
  · rintro (⟨h1, _⟩ | ⟨ld, dd, _, h2, _⟩)
    · exact absurd h1 (by decide)
    · have hnone : toDate c1Doc.date = none := by decide
      rw [hnone] at h2
      exact Option.noConfusion h2

/-- C1 (amended: the date clause holds with at least one date unparseable
instead of both): every pair recorded as a confirmed match by reconcile
satisfies the amount-tolerance condition, and either at least one of the two
dates is unparseable or the absolute day difference is at most 7. -/
theorem c1_amended_match_checks (documents : List Doc) (journal_rows : List Row)
    (m : MatchEntry) (hm : m ∈ (reconcile documents journal_rows).«matches»)
    (l : LinkedDoc) (hl : l ∈ m.documents) :
    claimAmountClause m.ledger_entry l.document ∧
      (toDate m.ledger_entry.posting_date = none ∨ toDate l.document.date = none ∨
        ∃ ld dd, toDate m.ledger_entry.posting_date = some ld ∧
          toDate l.document.date = some dd ∧
          (daysFromCivil ld - daysFromCivil dd).natAbs ≤ 7) := by
  rcases mem_reconcile_matches_iff.mp hm with ⟨row, hrow, hne, rfl⟩
  rcases mem_rowLinked_iff.mp hl with ⟨doc, hdoc, hcl⟩
  rcases classify_inl_spec hcl with ⟨hdocEq, _, hamount, hdate⟩
  subst hdocEq
  exact ⟨amount_fst_iff.mp hamount, date_fst_iff.mp hdate⟩

/-- C1 witness: the amended theorem applied to the concrete match above. -/
theorem c1_witness :
    claimAmountClause c1Match.ledger_entry c1Linked.document ∧
      (toDate c1Match.ledger_entry.posting_date = none ∨
        toDate c1Linked.document.date = none ∨
        ∃ ld dd, toDate c1Match.ledger_entry.posting_date = some ld ∧
          toDate c1Linked.document.date = some dd ∧
          (daysFromCivil ld - daysFromCivil dd).natAbs ≤ 7) :=
  c1_amended_match_checks [c1Doc] [c1Row] c1Match (by decide) c1Linked (by decide)

/-- Ledger row for C2: the amount check passes against the document below. -/
def c2Row : Row := { vendor_id := "VEND-100", amount := 100, posting_date := "2025-01-01" }

/-- Document for C2: same amount but a date 59 days away, so the date check
fails. -/
def c2Doc : Doc := { vendor_id := "VEND-100", amount := 100, date := "2025-03-01" }

/-- C2, behaviour of the code at the failing input: the amount check passes
and the date check fails with the date-gap failure message, yet the emitted
anomaly carries the amount-success comment as its reason, because the reason
chain takes the first non-empty comment and the amount comment is non-empty
even on success. The claim requires the date-check failure message here. -/
theorem c2_code_behavior :
    (amountWithinTolerance c2Row c2Doc).1 = true ∧
      dateWithinWindow c2Row c2Doc = (false, Comment.dateFail (-59)) ∧
      (reconcile [c2Doc] [c2Row]).anomalies =
        [⟨c2Row, some c2Doc, Comment.amountOk 0⟩,
          ⟨c2Row, none, Comment.noSupportingDoc⟩] :=
  ⟨by decide, by decide, by decide⟩

/-- C3: a ledger row of the input with no confirmed match receives the
catch-all anomaly carrying no document and the no-supporting-document
reason, while a row with at least one confirmed match never does. -/
theorem c3_catch_all_anomaly (documents : List Doc) (journal_rows : List Row)
    (row : Row) (hrow : row ∈ journal_rows) :
    ((∀ m ∈ (reconcile documents journal_rows).«matches», m.ledger_entry ≠ row) →
      (⟨row, none, Comment.noSupportingDoc⟩ : Anomaly) ∈
        (reconcile documents journal_rows).anomalies) ∧
    ((∃ m ∈ (reconcile documents journal_rows).«matches», m.ledger_entry = row) →
      ∀ a ∈ (reconcile documents journal_rows).anomalies,
        ¬(a.ledger_entry = row ∧ a.document = none ∧
          a.reason = Comment.noSupportingDoc)) := by
  constructor
  · intro hno
    have hempty : rowLinked documents row = [] := by
      by_contra hne
      exact hno _ (mem_reconcile_matches_iff.mpr ⟨row, hrow, hne, rfl⟩) rfl
    exact mem_reconcile_anomalies_iff.mpr ⟨row, hrow, Or.inr ⟨hempty, rfl⟩⟩
  · rintro ⟨m, hm, hme⟩ a ha ⟨hae, hadoc, _⟩
    rcases mem_reconcile_matches_iff.mp hm with ⟨row2, _, hne2, rfl⟩
    have hre : row2 = row := hme
    subst hre
    rcases mem_reconcile_anomalies_iff.mp ha with ⟨row3, _, hcase | ⟨hempty3, rfl⟩⟩
    · rcases mem_rowAnomalies_iff.mp hcase with ⟨doc2, _, hcl⟩
      rcases classify_inr_spec hcl with ⟨rfl, _, _⟩
      exact Option.noConfusion hadoc
    · have hre3 : row3 = row2 := hae
      subst hre3
      exact hne2 hempty3

/-- Ledger row with no documents at all, for the C3 witness. -/
def c3Row : Row := { vendor_id := "VEND-1" }

/-- C3 witness: the theorem applied at a concrete run with no documents, so
the catch-all anomaly is present. -/
theorem c3_witness :
    (⟨c3Row, none, Comment.noSupportingDoc⟩ : Anomaly) ∈
      (reconcile [] [c3Row]).anomalies :=
  (c3_catch_all_anomaly [] [c3Row] c3Row (by decide)).1 (by decide)

/-- C9: a document is linked to a ledger row by reconcile, as a confirmed
match or as an amount-or-date anomaly pair, only when at least one non-empty
document identifier equals one of the row identifiers case-insensitively. -/
theorem c9_id_overlap_required (documents : List Doc) (journal_rows : List Row) :
    (∀ m ∈ (reconcile documents journal_rows).«matches», ∀ l ∈ m.documents,
      claimIdOverlap m.ledger_entry l.document) ∧
    (∀ a ∈ (reconcile documents journal_rows).anomalies, ∀ doc : Doc,
      a.document = some doc → claimIdOverlap a.ledger_entry doc) := by
  constructor
  · intro m hm l hl
    rcases mem_reconcile_matches_iff.mp hm with ⟨row, _, _, rfl⟩
    rcases mem_rowLinked_iff.mp hl with ⟨doc, _, hcl⟩
    rcases classify_inl_spec hcl with ⟨hdocEq, hid, _, _⟩
    subst hdocEq
    exact idMatch_fst_overlap hid
  · intro a ha doc hdoc
    rcases mem_reconcile_anomalies_iff.mp ha with ⟨row, _, hcase | ⟨_, rfl⟩⟩
    · rcases mem_rowAnomalies_iff.mp hcase with ⟨doc2, _, hcl⟩
      rcases classify_inr_spec hcl with ⟨rfl, hid, _⟩
      have hde : doc2 = doc := Option.some.inj hdoc
      subst hde
      exact idMatch_fst_overlap hid
    · exact Option.noConfusion hdoc

/-- Ledger row for the C9 witness. -/
def c9Row : Row := { vendor_id := "VEND-9", amount := 0 }

/-- Document for the C9 witness: identifier overlap, failing amount check. -/
def c9Doc : Doc := { vendor_id := "VEND-9", amount := 100 }

/-- Anomaly pair produced by reconcile on the C9 witness inputs. -/
def c9Anom : Anomaly := ⟨c9Row, some c9Doc, Comment.amountFail 100 (1/2)⟩

/-- C9 witness: the theorem applied to a concrete anomaly pair. -/
theorem c9_witness : claimIdOverlap c9Anom.ledger_entry c9Doc :=
  (c9_id_overlap_required [c9Doc] [c9Row]).2 c9Anom (by decide) c9Doc rfl

/-- Character class of the metadata-line key in doc-agent: the bracket
expression holds upper-case letters, underscore and space, and the
ignore-case flag extends it to lower-case letters. -/
def isKeyChar (c : Char) : Bool :=
  ('A' ≤ c && c ≤ 'Z') || ('a' ≤ c && c ≤ 'z') || c = '_' || c = ' '

/-- Embedding of the metadata-line regex match of doc-agent together with the
key normalisation of the parse loop: a maximal non-empty prefix of key
characters, a literal colon, and a non-empty remainder; the key is stripped,
lower-cased and has spaces replaced by underscores, the value is the
remainder stripped of whitespace (the whitespace-star group of the regex
followed by the strip call collapse to exactly that). -/
def matchMetadataLine (line : String) : Option (String × String) :=
  let cs := line.data
  match cs.takeWhile isKeyChar, cs.dropWhile isKeyChar with
  | [], _ => none
  | key, ':' :: afterColon =>
    if afterColon = [] then none
    else
      some (⟨((trimChars key).map Char.toLower).map (fun c => if c = ' ' then '_' else c)⟩,
        ⟨trimChars afterColon⟩)
  | _, _ => none

/-- Parse loop of the underscore-named parse-file helper of doc-agent over
the lines of a file: every line matching the metadata pattern contributes a
key-value pair, every other line is kept as a body line, in order. The
metadata dict is modelled as the ordered list of assignments. -/
def parseLinesAux : List String → List (String × String) × List String
  | [] => ([], [])
  | line :: rest =>
    let result := parseLinesAux rest
    match matchMetadataLine line with
    | some kv => (kv :: result.1, result.2)
    | none => (result.1, line :: result.2)

/-- Dict lookup over the modelled metadata assignments: the last assignment
to a key wins, matching the overwrite semantics of the Python dict. -/
def metaGet (pairs : List (String × String)) (k : String) : Option String :=
  ((pairs.filter (fun p => p.1 = k)).getLast?).map (fun p => p.2)

/-- Embedding of the parse-file helper of doc-agent: the metadata
assignments and the newline-joined, stripped body. -/
def parseFile (lines : List String) : List (String × String) × String :=
  ((parseLinesAux lines).1, pyStrip (String.intercalate "\n" (parseLinesAux lines).2))

/-- File content for the C4 counterexample: a metadata line, a body line,
then another metadata-shaped line. -/
def c4Lines : List String := ["VENDOR_ID: V1", "hello world", "AMOUNT: 5"]

/-- C4, counterexample to the claim as stated: the KEY colon value shaped
line that comes after the first non-matching line is still recorded as
metadata and kept out of the body, so the body does not consist of every
line from the first non-matching line onward. -/
theorem c4_counterexample :
    ("amount", "5") ∈ (parseLinesAux c4Lines).1 ∧
      ("AMOUNT: 5" ∈ (parseLinesAux c4Lines).2) = False ∧
      (parseLinesAux c4Lines).2 = ["hello world"] :=
  ⟨by decide, by decide, by decide⟩

/-- C4 (amended: metadata status is position-independent): a line of a
document file is treated as metadata exactly when it matches the KEY colon
value pattern, wherever in the file it occurs, and the body consists of
exactly the non-matching lines in their original order. -/
theorem c4_amended_position_independent (lines : List String) :
    (parseLinesAux lines).1 = lines.filterMap matchMetadataLine ∧
      (parseLinesAux lines).2 = lines.filter (fun l => (matchMetadataLine l).isNone) := by
  induction lines with
  | nil => exact ⟨rfl, rfl⟩
  | cons line rest ih =>
    unfold parseLinesAux
    rcases h : matchMetadataLine line with _ | kv
    · simp [List.filterMap_cons, List.filter_cons, h, ih.1, ih.2]
    · simp [List.filterMap_cons, List.filter_cons, h, ih.1, ih.2]

/-- Normalised identifier set built by query-journal of data-agent: falsy
identifiers are dropped, the rest are stripped and upper-cased. -/
def queryIdSet (identifiers : List String) : List String :=
  (identifiers.filter (fun v => v ≠ "")).map (fun v => pyUpper (pyStrip v))

/-- Embedding of query-journal of data-agent over an explicit list of ledger
rows standing for the parsed CSV dataset: a row is kept when the identifier
set is empty or some non-empty upper-cased row identifier occurs in the set;
the per-row payload rebuild of the source is key-for-key and is modelled as
the row itself. -/
def queryJournal (identifiers : List String) (rows : List Row) : List Row :=
  rows.filter (fun row =>
    (queryIdSet identifiers).isEmpty ||
      [pyUpper row.vendor_id, pyUpper row.invoice_id, pyUpper row.po_id].any
        (fun token => token ≠ "" && (queryIdSet identifiers).contains token))

/-- Row filter as the claim states it: some non-empty identifier field of
the row matches an element of the normalised identifier set
case-insensitively. -/
def matchesIdentifierSet (identifiers : List String) (row : Row) : Bool :=
  [row.vendor_id, row.invoice_id, row.po_id].any
    (fun f => f ≠ "" && (queryIdSet identifiers).contains (pyUpper f))

/-- C7: with an empty identifier set query-journal returns the whole dataset
unfiltered, and with a non-empty identifier set it returns exactly the rows
whose vendor, invoice or purchase-order identifier matches an element of the
set case-insensitively. -/
theorem c7_query_journal_filter (identifiers : List String) (rows : List Row) :
    (queryIdSet identifiers = [] → queryJournal identifiers rows = rows) ∧
    (queryIdSet identifiers ≠ [] →
      queryJournal identifiers rows = rows.filter (matchesIdentifierSet identifiers)) := by
  have e : ∀ f : String, (decide (pyUpper f ≠ "")) = (decide (f ≠ "")) := fun f =>
    decide_eq_decide.mpr (not_congr pyUpper_eq_empty)
  constructor
  · intro h
    unfold queryJournal
    rw [h]
    simp
  · intro h
    unfold queryJournal
    apply List.filter_congr
    intro row _
    have hempty : (queryIdSet identifiers).isEmpty = false := by
      rcases hq : queryIdSet identifiers with _ | ⟨x, xs⟩
      · exact absurd hq h
      · rfl
    rw [hempty, Bool.false_or]
    unfold matchesIdentifierSet
    simp only [List.any_cons, List.any_nil, Bool.or_false, e]

/-- Two-row dataset for the C7 witness. -/
def c7Rows : List Row := [{ vendor_id := "VEND-1" }, { vendor_id := "VEND-2" }]

/-- C7 witness: the theorem applied to a whitespace-only identifier list
(empty normalised set, everything returned) and to a lower-case identifier
(non-empty set, exact filtered rows). -/
theorem c7_witness :
    queryJournal [""] c7Rows = c7Rows ∧
      queryJournal ["vend-1"] c7Rows = c7Rows.filter (matchesIdentifierSet ["vend-1"]) :=
  ⟨(c7_query_journal_filter [""] c7Rows).1 (by decide),
    (c7_query_journal_filter ["vend-1"] c7Rows).2 (by decide)⟩

/-- Ledger entry dataclass of data-agent. -/
structure LedgerEntry where
  entry_id : String := ""
  vendor_id : String := ""
  vendor_name : String := ""
  invoice_id : String := ""
  po_id : String := ""
  amount : ℚ := 0
  currency : String := "USD"
  status : String := "recorded"
  entry_date : String := ""
deriving DecidableEq, Inhabited

/-- Document record dataclass of doc-agent. -/
structure DocumentRecord where
  filename : String := ""
  path : String := ""
  doc_type : String := ""
  vendor_id : String := ""
  vendor_name : String := ""
  invoice_id : String := ""
  po_id : String := ""
  date : String := ""
  amount : ℚ := 0
  currency : String := "USD"
  text : String := ""
  manifest_ref : String := ""
  extraction_confidence : ℚ := 9/10
deriving DecidableEq, Inhabited

/-- Match result dataclass of match-agent; the rationale and anomaly notes
are kept as structured comments. -/
structure MatchResult where
  ledger_entry : LedgerEntry
  documents : List DocumentRecord
  score : ℚ
  notes : List Comment
deriving DecidableEq, Inhabited

/-- Ledger payload built in the match method: the dataclass dict with the
entry-date key moved to the posting-date key. -/
def LedgerEntry.toRow (e : LedgerEntry) : Row :=
  { entry_id := e.entry_id, vendor_id := e.vendor_id, vendor_name := e.vendor_name,
    invoice_id := e.invoice_id, po_id := e.po_id, amount := e.amount,
    currency := e.currency, status := e.status, posting_date := e.entry_date }

/-- Document payload built in the match method by to-dict; the extraction
confidence occupies the confidence slot that dict-to-record reads back. -/
def DocumentRecord.toDoc (d : DocumentRecord) : Doc :=
  { filename := d.filename, path := d.path, doc_type := d.doc_type,
    vendor_id := d.vendor_id, vendor_name := d.vendor_name,
    invoice_id := d.invoice_id, po_id := d.po_id, date := d.date,
    amount := d.amount, currency := d.currency, text := d.text,
    manifest_ref := d.manifest_ref, confidence := d.extraction_confidence }

/-- Embedding of the underscore-named dict-to-record helper of match-agent.
The or-fallbacks of the source leave a zero amount at zero and replace a
zero (falsy) confidence by the 0.9 default. -/
def dictToRecord (d : Doc) : DocumentRecord :=
  { filename := d.filename, path := d.path, doc_type := d.doc_type,
    vendor_id := d.vendor_id, vendor_name := d.vendor_name,
    invoice_id := d.invoice_id, po_id := d.po_id, date := d.date,
    amount := d.amount, currency := d.currency, text := d.text,
    manifest_ref := d.manifest_ref,
    extraction_confidence := if d.confidence = 0 then 9/10 else d.confidence }

/-- Embedding of the match method of the match-agent class: run reconcile on
the dict payloads, index the match entries by entry id (the dict
comprehension of the source lets later entries overwrite earlier ones, hence
the last matching entry is used), collect anomaly reasons grouped by
non-empty entry id, and emit one result per input entry in input order. -/
def matchAgentMatch (ledger_entries : List LedgerEntry)
    (documents : List DocumentRecord) : List MatchResult :=
  let outcome := reconcile (documents.map DocumentRecord.toDoc)
    (ledger_entries.map LedgerEntry.toRow)
  ledger_entries.map (fun entry =>
    let detail := (outcome.«matches».filter
      (fun m => m.ledger_entry.entry_id = entry.entry_id)).getLast?
    let linked := (detail.map (fun m => m.documents)).getD []
    let matched_docs := linked.map (fun l => dictToRecord l.document)
    let notes := linked.flatMap (fun l => l.rationale) ++
      (outcome.anomalies.filter (fun a =>
        a.ledger_entry.entry_id ≠ "" && a.ledger_entry.entry_id = entry.entry_id)).map
        (fun a => a.reason)
    { ledger_entry := entry, documents := matched_docs,
      score := if matched_docs = [] then (0 : ℚ) else 1, notes := notes })

/-- C10: the match method returns exactly one result per input ledger entry,
carrying it in input order, and the score of each result is 1.0 when at
least one document is linked and 0.0 otherwise. -/
theorem c10_match_results (ledger_entries : List LedgerEntry)
    (documents : List DocumentRecord) :
    (matchAgentMatch ledger_entries documents).map (fun r => r.ledger_entry) =
        ledger_entries ∧
      ∀ r ∈ matchAgentMatch ledger_entries documents,
        r.score = if r.documents = [] then (0 : ℚ) else 1 := by
  constructor
  · simp only [matchAgentMatch, List.map_map]
    exact List.map_id ledger_entries
  · intro r hr
    simp only [matchAgentMatch] at hr
    rcases List.mem_map.mp hr with ⟨entry, _, rfl⟩
    rfl

/-- One-entry input for the C10 witness. -/
def c10Entries : List LedgerEntry :=
  [{ entry_id := "JE-1", vendor_id := "VEND-1", amount := 50, entry_date := "2025-01-01" }]

/-- One-document input for the C10 witness, matching the entry above. -/
def c10Docs : List DocumentRecord :=
  [{ filename := "a.txt", vendor_id := "VEND-1", amount := 50, date := "2025-01-03" }]

/-- Ledger entry of the C10 witness result. -/
def c10ResultEntry : LedgerEntry :=
  { entry_id := "JE-1", vendor_id := "VEND-1", amount := 50, entry_date := "2025-01-01" }

/-- Document record of the C10 witness result. -/
def c10ResultDoc : DocumentRecord :=
  { filename := "a.txt", vendor_id := "VEND-1", amount := 50, date := "2025-01-03" }

/-- Result computed by the match method on the C10 witness inputs. -/
def c10Result : MatchResult :=
  { ledger_entry := c10ResultEntry,
    documents := [c10ResultDoc],
    score := 1,
    notes := [Comment.idMatchOn ["VEND-1"], Comment.amountOk 0, Comment.dateOk] }

/-- C10 witness: the theorem applied to the concrete one-entry run. -/
theorem c10_witness :
    (matchAgentMatch c10Entries c10Docs).map (fun r => r.ledger_entry) = c10Entries ∧
      c10Result.score = if c10Result.documents = [] then (0 : ℚ) else 1 :=
  ⟨(c10_match_results c10Entries c10Docs).1,
    (c10_match_results c10Entries c10Docs).2 c10Result (by decide)⟩

/-- Python true division guarded as the source relies on it: dividing by
zero is the zero-division error, anything else returns the quotient. -/
def pyDiv (a b : ℚ) : Except String ℚ :=
  if b = 0 then Except.error "ZeroDivisionError" else Except.ok (a / b)

/-- Bankers rounding of the Python round builtin on an exact rational. -/
def roundHalfToEven (x : ℚ) : Int :=
  let f := ⌊x⌋
  let r := x - (f : ℚ)
  if r < 1/2 then f
  else if (1 : ℚ)/2 < r then f + 1
  else if f % 2 = 0 then f else f + 1

/-- Python round to two decimal places. -/
def pyRound2 (x : ℚ) : ℚ := (roundHalfToEven (x * 100) : ℚ) / 100

/-- Coverage computation of the generate method of summary-agent: zero
unless both the document rows and the journal rows are non-empty, in which
case it is the rounded quotient of their counts; the journal rows are one
per match result and the document rows are the linked documents flattened. -/
def generateCoverage (results : List MatchResult) : Except String ℚ :=
  if results.flatMap (fun m => m.documents) ≠ [] ∧
      results.map (fun m => m.ledger_entry) ≠ [] then
    (pyDiv ((results.flatMap (fun m => m.documents)).length : ℚ)
      ((results.map (fun m => m.ledger_entry)).length : ℚ)).map pyRound2
  else Except.ok 0

/-- Context dict handed to the render-markdown helper of summary-agent. -/
structure SummaryCtx where
  documents : List Doc := []
  journal_entries : List Row := []
  anomalies : List Anomaly := []
deriving Inhabited

/-- Coverage expression of the render-markdown helper of summary-agent:
the rounded quotient of the document and journal counts when the journal
list is truthy, zero otherwise. -/
def renderCoverage (ctx : SummaryCtx) : Except String ℚ :=
  if ctx.journal_entries ≠ [] then
    (pyDiv (ctx.documents.length : ℚ) (ctx.journal_entries.length : ℚ)).map pyRound2
  else Except.ok 0

/-- C8: both coverage computations always succeed, never reaching the
zero-division error, and both yield zero whenever the journal-entry list is
empty. -/
theorem c8_coverage_safe (results : List MatchResult) (ctx : SummaryCtx) :
    (∃ c : ℚ, generateCoverage results = Except.ok c ∧ (results = [] → c = 0)) ∧
    (∃ c : ℚ, renderCoverage ctx = Except.ok c ∧ (ctx.journal_entries = [] → c = 0)) := by
  constructor
  · by_cases h : results.flatMap (fun m => m.documents) ≠ [] ∧
        results.map (fun m => m.ledger_entry) ≠ []
    · refine ⟨pyRound2 (((results.flatMap (fun m => m.documents)).length : ℚ) /
        ((results.map (fun m => m.ledger_entry)).length : ℚ)), ?_, ?_⟩
      · have hlen : (results.map (fun m => m.ledger_entry)).length ≠ 0 := by
          simpa using h.2
        have hz : ((results.map (fun m => m.ledger_entry)).length : ℚ) ≠ 0 :=
          Nat.cast_ne_zero.mpr hlen
        unfold generateCoverage
        rw [if_pos h]
        unfold pyDiv
        rw [if_neg hz]
        rfl
      · intro hre
        subst hre
        exact absurd rfl h.2
    · refine ⟨0, ?_, fun _ => rfl⟩
      unfold generateCoverage
      rw [if_neg h]
  · by_cases h : ctx.journal_entries ≠ []
    · refine ⟨pyRound2 ((ctx.documents.length : ℚ) / (ctx.journal_entries.length : ℚ)),
        ?_, ?_⟩
      · have hlen : ctx.journal_entries.length ≠ 0 := by
          simpa using h
        have hz : (ctx.journal_entries.length : ℚ) ≠ 0 := Nat.cast_ne_zero.mpr hlen
        unfold renderCoverage
        rw [if_pos h]
        unfold pyDiv
        rw [if_neg hz]
        rfl
      · intro hre
        exact absurd hre h
    · refine ⟨0, ?_, fun _ => rfl⟩
      unfold renderCoverage
      rw [if_neg h]

/-- C8 witness: the theorem applied to the empty match list and the empty
context, for which both coverage values are zero. -/
theorem c8_witness :
    (∃ c : ℚ, generateCoverage [] = Except.ok c ∧
      (([] : List MatchResult) = [] → c = 0)) ∧
    (∃ c : ℚ, renderCoverage {} = Except.ok c ∧
      (SummaryCtx.journal_entries {} = [] → c = 0)) :=
  c8_coverage_safe [] {}

/-- Entity buckets of a parsed intent, as read by collect-identifiers. -/
structure Entities where
  vendor_ids : List String := []
  invoice_ids : List String := []
  po_ids : List String := []
deriving DecidableEq, Inhabited

/-- Parsed intent dict handed to the execute method. -/
structure Intent where
  intent : String := "general_query"
  entities : Entities := {}
deriving DecidableEq, Inhabited

/-- Embedding of the underscore-named collect-identifiers helper of the
orchestrator: concatenate the three entity buckets, dropping falsy values
and duplicates while keeping first-seen order. -/
def collectIdentifiers (entities : Entities) : List String :=
  (entities.vendor_ids ++ entities.invoice_ids ++ entities.po_ids).foldl
    (fun acc value => if value ≠ "" ∧ value ∉ acc then acc ++ [value] else acc) []

/-- One plan step dict: the execute loop reads the task key and falls back
to the action key. -/
structure Step where
  task : Option String := none
  action : Option String := none
deriving DecidableEq, Inhabited

/-- Task name of a plan step: the task value, or the action value when the
task key is absent or falsy, following the or-expression of the source. -/
def stepName (s : Step) : Option String :=
  match s.task with
  | some t => if t = "" then s.action else some t
  | none => s.action

/-- Context dict of a run: the keys created up front plus the keys each task
may add; a key a task has not yet set is modelled as none. -/
structure Context where
  run_id : String := ""
  intent : Intent := {}
  plan : List Step := []
  identifiers : List String := []
  documents : Option (List Doc) := none
  journal_entries : Option (List Row) := none
  «matches» : Option (List MatchEntry) := none
  anomalies : Option (List Anomaly) := none
  summary_text : Option String := none
  package_path : Option String := none
deriving DecidableEq, Inhabited

/-- Environment of the execute loop: the collaborating agents whose work
involves the file system or callbacks are abstracted as fallible functions,
an error value standing for a raised exception. -/
structure Env where
  findDocs : List String → Except String (List Doc)
  queryJournalRows : List String → Except String (List Row)
  streamSummary : SummaryCtx → Except String String
  preparePackage : Context → String → Except String String

/-- One iteration of the task loop of the execute method: dispatch on the
task name; reconcile runs in process on the context data; the package step
is skipped under dry-run; an unmatched name falls through to the final else
and leaves the context unchanged. -/
def execStep (env : Env) (dryRun : Bool) (ctx : Context) (step : Step) :
    Except String Context :=
  let task := stepName step
  if task = some "doc.find_docs" ∨ task = some "collect_documents" then
    (env.findDocs ctx.identifiers).map
      (fun documents => { ctx with documents := some documents })
  else if task = some "data.query_journal" then
    (env.queryJournalRows ctx.identifiers).map
      (fun rows => { ctx with journal_entries := some rows })
  else if task = some "match.reconcile" then
    let outcome := reconcile (ctx.documents.getD []) (ctx.journal_entries.getD [])
    Except.ok
      { ctx with
        «matches» := some outcome.«matches»
        anomalies := some outcome.anomalies }
  else if task = some "summary.stream_summary" ∨ task = some "summary.generate" then
    let summary_context : SummaryCtx :=
      { documents := ctx.documents.getD []
        journal_entries := ctx.journal_entries.getD []
        anomalies := ctx.anomalies.getD [] }
    (env.streamSummary summary_context).map
      (fun text => { ctx with summary_text := some text })
  else if task = some "notify.prepare_package" ∨ task = some "package.ensure_ready" then
    if dryRun then Except.ok ctx
    else
      (env.preparePackage ctx ctx.run_id).map
        (fun p => { ctx with package_path := some p })
  else Except.ok ctx

/-- Task loop of the execute method: the steps run strictly in sequence and
an error (an uncaught exception) stops the loop and propagates. -/
def execPlan (env : Env) (dryRun : Bool) : Context → List Step → Except String Context
  | ctx, [] => Except.ok ctx
  | ctx, step :: rest =>
    match execStep env dryRun ctx step with
    | Except.ok ctx2 => execPlan env dryRun ctx2 rest
    | Except.error e => Except.error e

/-- Manifest document written after the loop completes: intent, plan, the
context snapshot without the plan key, and the two flags. -/
structure Manifest where
  run_id : String
  intent : Intent
  plan : List Step
  context : Context
  dry_run : Bool
  confirm_send : Bool
deriving DecidableEq

/-- Context snapshot stored in the manifest: every key except the plan key,
modelled by clearing the plan field. -/
def contextSansPlan (ctx : Context) : Context := { ctx with plan := [] }

/-- Return value of the execute method on the success path; the manifest
field stands for the manifest file written at that point, which is the only
place the orchestrator writes one. -/
structure RunResult where
  run_id : String
  package_path : Option String
  manifest : Manifest
  context : Context
deriving DecidableEq

/-- Initial context built by the execute method before the loop. -/
def initContext (parsedIntent : Intent) (plan : List Step) (runId : String) : Context :=
  { run_id := runId, intent := parsedIntent, plan := plan,
    identifiers := collectIdentifiers parsedIntent.entities }

/-- Embedding of the execute method of the orchestrator: run the plan from
the initial context; only when the loop finishes without an error is the
manifest built and returned, while an error propagates unchanged. -/
def orchestratorExecute (env : Env) (parsedIntent : Intent) (plan : List Step)
    (dryRun confirmSend : Bool) (runId : String) : Except String RunResult :=
  match execPlan env dryRun (initContext parsedIntent plan runId) plan with
  | Except.error e => Except.error e
  | Except.ok ctx =>
    let manifest : Manifest :=
      { run_id := runId
        intent := parsedIntent
        plan := plan
        context := contextSansPlan ctx
        dry_run := dryRun
        confirm_send := confirmSend }
    Except.ok
      { run_id := runId
        package_path := ctx.package_path
        manifest := manifest
        context := ctx }

/-- Task names of the dispatch table of the execute loop, aliases included. -/
def knownTasks : List String :=
  ["doc.find_docs", "collect_documents", "data.query_journal", "match.reconcile",
    "summary.stream_summary", "summary.generate", "notify.prepare_package",
    "package.ensure_ready"]

/-- A step is unknown to the dispatch table when its resolved name is absent
from it, including when no name resolves at all. -/
def isUnknownTask (step : Step) : Bool :=
  match stepName step with
  | some t => !(knownTasks.contains t)
  | none => true

theorem execPlan_cons (env : Env) (dryRun : Bool) (ctx : Context) (step : Step)
    (rest : List Step) :
    execPlan env dryRun ctx (step :: rest) =
      match execStep env dryRun ctx step with
      | Except.ok ctx2 => execPlan env dryRun ctx2 rest
      | Except.error e => Except.error e := rfl

theorem execPlan_append (env : Env) (dryRun : Bool) (pre : List Step) :
    ∀ (ctx : Context) (rest : List Step),
      execPlan env dryRun ctx (pre ++ rest) =
        match execPlan env dryRun ctx pre with
        | Except.ok mid => execPlan env dryRun mid rest
        | Except.error e => Except.error e := by
  induction pre with
  | nil => intro ctx rest; rfl
  | cons p pre ih =>
    intro ctx rest
    rw [List.cons_append, execPlan_cons, execPlan_cons]
    rcases execStep env dryRun ctx p with e | ctx2
    · rfl
    · exact ih ctx2 rest

/-- C5: a plan step whose name is outside the dispatch table leaves the
context unchanged, and the run executes all remaining plan steps exactly as
if the unknown step were absent, from any context and position. -/
theorem c5_unknown_task_skipped (env : Env) (dryRun : Bool) (step : Step)
    (hu : isUnknownTask step = true) :
    (∀ ctx : Context, execStep env dryRun ctx step = Except.ok ctx) ∧
    (∀ (ctx : Context) (pre post : List Step),
      execPlan env dryRun ctx (pre ++ step :: post) =
        execPlan env dryRun ctx (pre ++ post)) := by
  have hstep : ∀ ctx : Context, execStep env dryRun ctx step = Except.ok ctx := by
    intro ctx
    unfold execStep
    rcases hn : stepName step with _ | t
    · simp [hn]
    · have hmem : t ∉ knownTasks := by
        unfold isUnknownTask at hu
        rw [hn] at hu
        simpa using hu
      simp only [knownTasks, List.mem_cons, List.not_mem_nil, or_false, not_or] at hmem
      obtain ⟨h1, h2, h3, h4, h5, h6, h7, h8⟩ := hmem
      simp [hn, h1, h2, h3, h4, h5, h6, h7, h8]
  refine ⟨hstep, ?_⟩
  intro ctx pre post
  induction pre generalizing ctx with
  | nil =>
    rw [List.nil_append, List.nil_append, execPlan_cons, hstep ctx]
  | cons p pre ih =>
    rw [List.cons_append, List.cons_append, execPlan_cons, execPlan_cons]
    rcases execStep env dryRun ctx p with e | ctx2
    · rfl
    · exact ih ctx2

/-- Benign environment for the C5 witness. -/
def c5Env : Env :=
  { findDocs := fun _ => Except.ok [],
    queryJournalRows := fun _ => Except.ok [],
    streamSummary := fun _ => Except.ok "",
    preparePackage := fun _ _ => Except.ok "" }

/-- A step with a task name outside the dispatch table. -/
def c5Unknown : Step := { task := some "mystery.task" }

/-- A step with a known task name, to run after the unknown one. -/
def c5Known : Step := { task := some "data.query_journal" }

/-- C5 witness: the theorem applied to a concrete plan holding the unknown
step first: the run equals the run of the remaining plan. -/
theorem c5_witness :
    execPlan c5Env false {} [c5Unknown, c5Known] = execPlan c5Env false {} [c5Known] :=
  (c5_unknown_task_skipped c5Env false c5Unknown (by decide)).2 {} [] [c5Known]

/-- C6: when a task raises, the error propagates to the caller as the
outcome of the whole run, the steps after the failing one are never
executed (the outcome does not depend on them), and no manifest is built,
the successful result being the only carrier of one. -/
theorem c6_task_error_propagates (env : Env) (parsedIntent : Intent)
    (dryRun confirmSend : Bool) (runId : String) (pre post : List Step) (step : Step)
    (ctxMid : Context) (e : String)
    (hpre : execPlan env dryRun (initContext parsedIntent (pre ++ step :: post) runId)
      pre = Except.ok ctxMid)
    (hstep : execStep env dryRun ctxMid step = Except.error e) :
    execPlan env dryRun (initContext parsedIntent (pre ++ step :: post) runId)
        (pre ++ step :: post) = Except.error e ∧
      orchestratorExecute env parsedIntent (pre ++ step :: post) dryRun confirmSend
        runId = Except.error e := by
  have h1 : execPlan env dryRun (initContext parsedIntent (pre ++ step :: post) runId)
      (pre ++ step :: post) = Except.error e := by
    rw [execPlan_append, hpre]
    show execPlan env dryRun ctxMid (step :: post) = Except.error e
    rw [execPlan_cons, hstep]
  refine ⟨h1, ?_⟩
  unfold orchestratorExecute
  rw [h1]

/-- Environment for the C6 witness whose ledger lookup raises. -/
def c6Env : Env :=
  { findDocs := fun _ => Except.ok [],
    queryJournalRows := fun _ => Except.error "boom",
    streamSummary := fun _ => Except.ok "",
    preparePackage := fun _ _ => Except.ok "" }

/-- Steps before the failing one in the C6 witness plan. -/
def c6Pre : List Step := [{ task := some "doc.find_docs" }]

/-- The failing step of the C6 witness plan. -/
def c6Step : Step := { task := some "data.query_journal" }

/-- Steps after the failing one in the C6 witness plan; they are never
reached. -/
def c6Post : List Step := [{ task := some "match.reconcile" }]

/-- The C6 witness plan. -/
def c6Plan : List Step := c6Pre ++ c6Step :: c6Post

/-- Context after the first step of the C6 witness plan. -/
def c6CtxMid : Context :=
  { initContext {} c6Plan "run-1" with documents := some ([] : List Doc) }

/-- C6 witness: the theorem applied to the concrete failing run. -/
theorem c6_witness :
    execPlan c6Env false (initContext {} c6Plan "run-1") c6Plan =
        Except.error "boom" ∧
      orchestratorExecute c6Env {} c6Plan false false "run-1" =
        Except.error "boom" :=
  c6_task_error_propagates c6Env {} false false "run-1" c6Pre c6Post c6Step c6CtxMid
    "boom" (by rfl) (by rfl)

end AudItecX
